import Mathlib

/-!
Verification of the s21 containers library (doubly linked list, stack and
queue adapters, and the red-black tree engine behind set/map/multiset).

The list is modelled at the pointer level: a `Heap` of numbered nodes plays
the role of the C++ free store (node ids are addresses), and an `LState`
holds the `head_`/`tail_`/`size_` fields of `s21::list`.  Every list
operation is translated statement by statement from
`src/containers/list.h`.  An operation returns `none` exactly when the C++
code would dereference a null pointer or run forever (undefined behavior);
`delete` marks the node `freed` but keeps its bytes addressable, which is
what the running program observes when a dangling pointer is later used.
`size_t` is modelled as `Nat`: every `size_--` in the source is guarded by
a non-emptiness test on the paths exercised here, so no wraparound occurs.
Functions that can signal an error to their caller (a C++ `throw`) return
`Except Err`; functions whose bodies contain no `throw` are wrapped with
`Except.ok` so that "signals an error" is expressible about them as well.
-/

namespace S21

/-- Error taxonomy of the spec: `front`/`back` throw `std::out_of_range`
("EmptyContainer"), and the spec additionally names an `InvalidIterator`
error which the list code never raises. -/
inductive Err where
  | outOfRange (msg : String)
  | invalidIterator
  deriving Repr, DecidableEq

/-- A list node, from `list<T>::Node`: a value and raw `prev_`/`next_`
pointers (`none` is `nullptr`).  `freed` records that `delete` ran on this
node; the bytes stay addressable, as on a real heap. -/
structure Node (T : Type) where
  value : T
  prev : Option Nat
  next : Option Nat
  freed : Bool
  deriving Repr, DecidableEq

/-- The free store: node ids are list indices, allocation appends.
`errLog` collects what the source prints to `std::cerr`. -/
structure Heap (T : Type) where
  mem : List (Node T)
  errLog : List String
  deriving Repr, DecidableEq

/-- The data members of `s21::list`: `head_`, `tail_`, `size_`. -/
structure LState where
  head : Option Nat
  tail : Option Nat
  size : Nat
  deriving Repr, DecidableEq

/-- Read the node at address `i`; `none` means the address was never
allocated (impossible for pointers the program actually holds). -/
def Heap.read {T : Type} (h : Heap T) (i : Nat) : Option (Node T) :=
  h.mem[i]?

/-- Overwrite the node at address `i`. -/
def Heap.write {T : Type} (h : Heap T) (i : Nat) (n : Node T) : Heap T :=
  { h with mem := h.mem.set i n }

/-- Source `node->next_ = p`. -/
def Heap.setNext {T : Type} (h : Heap T) (i : Nat) (p : Option Nat) :
    Option (Heap T) :=
  (h.read i).map fun n => h.write i { n with next := p }

/-- Source `node->prev_ = p`. -/
def Heap.setPrev {T : Type} (h : Heap T) (i : Nat) (p : Option Nat) :
    Option (Heap T) :=
  (h.read i).map fun n => h.write i { n with prev := p }

/-- Source `new Node(value)`: the constructor sets `prev_` and `next_` to null. -/
def Heap.alloc {T : Type} (h : Heap T) (v : T) : Heap T × Nat :=
  ({ h with mem := h.mem ++ [⟨v, none, none, false⟩] }, h.mem.length)

/-- Source `delete node`: mark the cell freed; its bytes remain addressable. -/
def Heap.free {T : Type} (h : Heap T) (i : Nat) : Heap T :=
  match h.read i with
  | none => h
  | some n => h.write i { n with freed := true }

/-- The message `list::pop_back` prints to `std::cerr` on an empty list,
also used as the `std::out_of_range` payload of `front`/`back`. -/
def listEmptyMsg : String :=
  "list is empty"

/-- Source `list::empty()`: `size_ == 0`. -/
def emptyB (l : LState) : Bool :=
  l.size == 0

/-- Source `list::begin()`: `empty() ? iterator(nullptr) : iterator(head_)`. -/
def beginIt (l : LState) : Option Nat :=
  if emptyB l then none else l.head

/-- Source `list::end()`: `iterator(nullptr)`. -/
def endIt : Option Nat :=
  none

/-- Source `list::push_back(value)`, translated statement by statement. -/
def push_back {T : Type} (h : Heap T) (l : LState) (v : T) :
    Option (Heap T × LState) :=
  let (h1, id) := h.alloc v
  match l.head with
  | none => some (h1, ⟨some id, some id, l.size + 1⟩)
  | some _ =>
    match l.tail with
    | none => none
    | some t => do
      let h2 ← h1.setNext t (some id)
      let h3 ← h2.setPrev id (some t)
      some (h3, { l with tail := some id, size := l.size + 1 })

/-- Source `list::pop_back()`: on an empty list it prints "list is empty" to
`std::cerr` and leaves the list alone; otherwise it deletes the tail. -/
def pop_back {T : Type} (h : Heap T) (l : LState) :
    Option (Heap T × LState) :=
  if emptyB l then
    some ({ h with errLog := h.errLog ++ [listEmptyMsg] }, l)
  else if l.size == 1 then
    let h1 := match l.head with
      | some i => h.free i
      | none => h
    some (h1, ⟨none, none, l.size - 1⟩)
  else do
    let t ← l.tail
    let tn ← h.read t
    let h1 := h.free t
    let p ← tn.prev
    let h2 ← h1.setNext p none
    some (h2, { l with tail := some p, size := l.size - 1 })

/-- Source `list::push_front(value)`. -/
def push_front {T : Type} (h : Heap T) (l : LState) (v : T) :
    Option (Heap T × LState) :=
  let (h1, id) := h.alloc v
  if emptyB l then
    some (h1, ⟨some id, some id, l.size + 1⟩)
  else do
    let h2 ← h1.setNext id l.head
    let hd ← l.head
    let h3 ← h2.setPrev hd (some id)
    some (h3, { l with head := some id, size := l.size + 1 })

/-- Source `list::pop_front()`: a silent no-op when `head_` is null. -/
def pop_front {T : Type} (h : Heap T) (l : LState) :
    Option (Heap T × LState) :=
  match l.head with
  | none => some (h, l)
  | some hd => do
    let n ← h.read hd
    let (h1, l1) ←
      match n.next with
      | some nx => do
        let h' ← h.setPrev nx none
        some (h', { l with head := some nx })
      | none => some (h, { l with head := none, tail := none })
    some (h1.free hd, { l1 with size := l1.size - 1 })

/-- Source `list::insert(pos, value)`: insert before `pos`; a null `pos` (end)
appends after `tail_`, even when `tail_` dangles. -/
def insertAt {T : Type} (h : Heap T) (l : LState) (pos : Option Nat)
    (v : T) : Option (Heap T × LState × Option Nat) :=
  let (h1, id) := h.alloc v
  match pos with
  | none => do
    let h2 ← h1.setPrev id l.tail
    match l.tail with
    | some t => do
      let h3 ← h2.setNext t (some id)
      some (h3, { l with tail := some id, size := l.size + 1 }, some id)
    | none =>
      some (h2, ⟨some id, some id, l.size + 1⟩, some id)
  | some p => do
    let pn ← h1.read p
    let h2 ← h1.setPrev id pn.prev
    let h3 ← h2.setNext id (some p)
    let (h4, l') ←
      match pn.prev with
      | some q => do
        let hq ← h3.setNext q (some id)
        some (hq, l)
      | none => some (h3, { l with head := some id })
    let h5 ← h4.setPrev p (some id)
    some (h5, { l' with size := l'.size + 1 }, some id)

/-- Source `list::erase(pos)`: guarded by `(pos != end()) && (!empty())`,
otherwise it returns `end()` and touches nothing.  Note that when the node
is both head and tail only the head branch runs, so `tail_` is left
pointing at the deleted node. -/
def erase {T : Type} (h : Heap T) (l : LState) (pos : Option Nat) :
    Option (Heap T × LState × Option Nat) :=
  match pos with
  | none => some (h, l, endIt)
  | some p =>
    if emptyB l then some (h, l, endIt)
    else do
      let n ← h.read p
      let nextIt := n.next
      let (h1, l1) ←
        if l.head = some p then
          some (h, { l with head := n.next })
        else if l.tail = some p then do
          let q ← n.prev
          let h' ← h.setNext q none
          some (h', { l with tail := n.prev })
        else do
          let nx ← n.next
          let pv ← n.prev
          let h' ← h.setPrev nx n.prev
          let h'' ← h'.setNext pv n.next
          some (h'', l)
      some (h1.free p, { l1 with size := l1.size - 1 }, nextIt)

/-- Source `list::erase` wrapped in the error channel: its body contains no
`throw`, so it can only ever produce `Except.ok`. -/
def eraseE {T : Type} (h : Heap T) (l : LState) (pos : Option Nat) :
    Option (Except Err (Heap T × LState × Option Nat)) :=
  (erase h l pos).map Except.ok

/-- Source `list::clear()`: `while (!empty()) pop_back();`.  `size_` strictly
decreases each iteration, so `size_` rounds of fuel always suffice. -/
def clearAux {T : Type} : Nat → Heap T → LState → Option (Heap T × LState)
  | 0, h, l => if emptyB l then some (h, l) else none
  | fuel + 1, h, l =>
    if emptyB l then some (h, l)
    else do
      let (h', l') ← pop_back h l
      clearAux fuel h' l'

/-- Source `list::clear()`. -/
def clear {T : Type} (h : Heap T) (l : LState) : Option (Heap T × LState) :=
  clearAux l.size h l

/-- Source `list::front()`: throws `std::out_of_range("list is empty")` on an
empty list, otherwise returns `head_->value_`. -/
def front {T : Type} (h : Heap T) (l : LState) : Option (Except Err T) :=
  if emptyB l then some (Except.error (Err.outOfRange listEmptyMsg))
  else do
    let hd ← l.head
    let n ← h.read hd
    some (Except.ok n.value)

/-- Source `list::back()`: throws `std::out_of_range("list is empty")` on an
empty list, otherwise returns `tail_->value_`. -/
def back {T : Type} (h : Heap T) (l : LState) : Option (Except Err T) :=
  if emptyB l then some (Except.error (Err.outOfRange listEmptyMsg))
  else do
    let t ← l.tail
    let n ← h.read t
    some (Except.ok n.value)

/-- Follow `next_` pointers from a cursor, collecting values until the null
cursor (`end()`).  The fuel bounds the walk: a corrupt cyclic list would
make the C++ loop run forever, which surfaces as `none`. -/
def chain {T : Type} (m : List (Node T)) : Nat → Option Nat → Option (List T)
  | _, none => some []
  | 0, some _ => none
  | fuel + 1, some i => do
    let n ← m[i]?
    let rest ← chain m fuel n.next
    some (n.value :: rest)

/-- The element sequence of a full traversal from `begin()` to `end()`
(each step is `ListIterator::operator++`, i.e. `node_ = node_->next_`).
One unit of fuel per heap cell plus one is enough for any acyclic walk. -/
def toListL {T : Type} (h : Heap T) (l : LState) : Option (List T) :=
  chain h.mem (h.mem.length + 1) (beginIt l)

/-- The comparison loop of `list::operator==`: starting from the two
`head_` pointers, walk both lists while both cursors are non-null and
report `false` on the first value mismatch, `true` when either cursor
reaches null. -/
def eqLoop {T : Type} [DecidableEq T] (m1 m2 : List (Node T)) :
    Nat → Option Nat → Option Nat → Option Bool
  | _, none, _ => some true
  | _, some _, none => some true
  | 0, some _, some _ => none
  | fuel + 1, some i, some j => do
    let n1 ← m1[i]?
    let n2 ← m2[j]?
    if n1.value = n2.value then eqLoop m1 m2 fuel n1.next n2.next
    else some false

/-- Source `list::operator==`: `false` when the `size_` fields differ, otherwise
the result of the element-comparison walk from the two heads. -/
def listEqOp {T : Type} [DecidableEq T] (h1 : Heap T) (l1 : LState)
    (h2 : Heap T) (l2 : LState) : Option Bool :=
  if l1.size ≠ l2.size then some false
  else eqLoop h1.mem h2.mem (h1.mem.length + h2.mem.length + 1) l1.head l2.head

/-- Source `ListIterator::operator==`: `node_ == other.node_`, raw pointer
identity; the stored values are never consulted. -/
def iterEqOp (a b : Option Nat) : Bool :=
  a == b

/-- Source `ListIterator::operator!=`: `!(*this == other)`. -/
def iterNeOp (a b : Option Nat) : Bool :=
  !(iterEqOp a b)

/-- Source `ListConstIterator::operator==`: same body as the mutable iterator. -/
def constIterEqOp (a b : Option Nat) : Bool :=
  a == b

/-- Source `ListConstIterator::operator!=`: `!(*this == other)`. -/
def constIterNeOp (a b : Option Nat) : Bool :=
  !(constIterEqOp a b)

/-- Source `ListIterator::operator*`: `node_ ? node_->value_ : default_value`,
where `default_value` is a function-local `static value_type` that was
value-initialized (`default` in Lean).  There is no `throw` on any path. -/
def derefIter {T : Type} [Inhabited T] (h : Heap T) (it : Option Nat) :
    Option T :=
  match it with
  | none => some default
  | some i => (h.read i).map (·.value)

/-- Source `ListIterator::operator*` seen through the error channel: the body has
no `throw`, so every defined outcome is `Except.ok`. -/
def derefIterE {T : Type} [Inhabited T] (h : Heap T) (it : Option Nat) :
    Option (Except Err T) :=
  (derefIter h it).map Except.ok

/-- Source `ListConstIterator::operator*`: identical body to the mutable one. -/
def derefConstIter {T : Type} [Inhabited T] (h : Heap T) (it : Option Nat) :
    Option T :=
  match it with
  | none => some default
  | some i => (h.read i).map (·.value)

/-- Source `ListConstIterator::operator*` through the error channel. -/
def derefConstIterE {T : Type} [Inhabited T] (h : Heap T) (it : Option Nat) :
    Option (Except Err T) :=
  (derefConstIter h it).map Except.ok

/-- "The operation fails loudly": it either aborts (undefined behavior,
`none`) or signals an error to its caller. -/
def signalsError {α : Type} (r : Option (Except Err α)) : Prop :=
  r = none ∨ ∃ e, r = some (Except.error e)

/-- The moved-from state: `head_ = tail_ = nullptr`, `size_ = 0`. -/
def emptyLS : LState :=
  ⟨none, none, 0⟩

/-- Source `list::list(list &&l)`: the new list steals `head_`/`tail_`/`size_`
and the source is nulled out.  `queue`/`stack` move construction move
their member container, so they behave identically. -/
def list_move_ctor (l : LState) : LState × LState :=
  (⟨l.head, l.tail, l.size⟩, emptyLS)

/-- Source `list::operator=(list &&l)` for distinct objects: `clear()` the
target, steal the source's fields, null the source.  (Self-move is a
guarded no-op in the source and is not modelled.) -/
def list_move_assign {T : Type} (h : Heap T) (tgt src : LState) :
    Option (Heap T × LState × LState) := do
  let (h1, _) ← clear h tgt
  some (h1, ⟨src.head, src.tail, src.size⟩, emptyLS)

/-- Source `queue::operator=(queue &&q)`: `swap(q)` — the two containers trade
contents wholesale; nothing is cleared. -/
def queue_move_assign (tgt src : LState) : LState × LState :=
  (src, tgt)

/-- Source `stack::operator=(stack &&s)`: `swap(s)`, same swap idiom. -/
def stack_move_assign (tgt src : LState) : LState × LState :=
  (src, tgt)

/-- Source `queue::front()`: `return c.front();`. -/
def queue_front {T : Type} (h : Heap T) (l : LState) : Option (Except Err T) :=
  front h l

/-- Source `queue::back()`: `return c.back();`. -/
def queue_back {T : Type} (h : Heap T) (l : LState) : Option (Except Err T) :=
  back h l

/-- Source `stack::top()`: `return c.back();`. -/
def stack_top {T : Type} (h : Heap T) (l : LState) : Option (Except Err T) :=
  back h l

/-- Source `list::pop_back` through the error channel: declared `noexcept` and
containing no `throw`, so every defined outcome is `Except.ok`. -/
def pop_backE {T : Type} (h : Heap T) (l : LState) :
    Option (Except Err (Heap T × LState)) :=
  (pop_back h l).map Except.ok

/-- A list whose representation is sane: the traversal from `begin()`
succeeds and yields `xs`, `size_` agrees with it, and `begin()` coincides
with `head_` (so on `size_ = 0` the head pointer is null). -/
def WFr {T : Type} (h : Heap T) (l : LState) (xs : List T) : Prop :=
  toListL h l = some xs ∧ l.size = xs.length ∧ l.head = beginIt l

/-!
The red-black tree engine.  `s21_containers.h` includes
`containers/set.h` and `containers/map.h`, but those files are not in the
sources; only the spec describes the tree.  The definitions below are
therefore modelled from the spec, §4.1: insertion descends by the
comparator, attaches the new node colored RED, rebalances with the
rotation/recolor fixup on the way back up, and forces the root BLACK at
the end; deletion removes the node, rebalances, and likewise leaves a
black root.  The standard functional red-black rebalancing
(`Batteries.RBNode.ins` / `Batteries.RBNode.del`, the same
rotation/recolor cases written as pattern matches) realizes the fixup.
The comparator is an arbitrary argument, which covers the set/map policy
(a comparator that can answer `eq`) as well as the multiset tie-break
policy (a comparator that never answers `eq`, sending equal keys right).
-/

/-- Modelled from the spec: tree-engine `insert` (§4.1) — descend by
`cmp`, attach the new node RED, run the insertion fixup, force the root
BLACK at the end. -/
def tinsert {α : Type} (cmp : α → α → Ordering) (t : Batteries.RBNode α)
    (v : α) : Batteries.RBNode α :=
  (Batteries.RBNode.ins cmp v t).setBlack

/-- Modelled from the spec: tree-engine `erase` by key (§4.1) — remove the
node matching `k` under `cmp`, run the deletion fixup, force the root
BLACK. -/
def terase {α : Type} (cmp : α → α → Ordering) (t : Batteries.RBNode α)
    (k : α) : Batteries.RBNode α :=
  Batteries.RBNode.erase (cmp k) t

/-- The color at the root of a subtree; nil leaves are conceptually
BLACK (spec §3, invariant 4). -/
def topColor {α : Type} : Batteries.RBNode α → Batteries.RBColor
  | .nil => .black
  | .node c _ _ _ => c

/-- Boolean test for the BLACK color. -/
def isBlackC : Batteries.RBColor → Bool
  | .black => true
  | .red => false

/-- Spec §3 invariant 1: the root node is BLACK (an empty tree passes). -/
def rootBlack {α : Type} : Batteries.RBNode α → Bool
  | .nil => true
  | .node c _ _ _ => isBlackC c

/-- Spec §3 invariant 2: no RED node has a RED child. -/
def noRedRed {α : Type} : Batteries.RBNode α → Bool
  | .nil => true
  | .node c l _ r =>
    noRedRed l && noRedRed r &&
      (isBlackC c || (isBlackC (topColor l) && isBlackC (topColor r)))

/-- Spec §3 invariant 3: the number of BLACK nodes on a root-to-nil path,
defined only when every path through the subtree agrees. -/
def bhOpt {α : Type} : Batteries.RBNode α → Option Nat
  | .nil => some 0
  | .node c l _ r => do
    let nl ← bhOpt l
    let nr ← bhOpt r
    if nl = nr then some (nl + (if isBlackC c then 1 else 0))
    else none

/-- One public tree operation: insert a key or erase by key. -/
inductive TreeOp (α : Type) where
  | insertK (k : α)
  | eraseK (k : α)

/-- Apply one tree operation. -/
def treeStep {α : Type} (cmp : α → α → Ordering) (t : Batteries.RBNode α) :
    TreeOp α → Batteries.RBNode α
  | .insertK k => tinsert cmp t k
  | .eraseK k => terase cmp t k

/-- Run an interleaved sequence of insert/erase operations from the empty
tree. -/
def runTree {α : Type} (cmp : α → α → Ordering) (ops : List (TreeOp α)) :
    Batteries.RBNode α :=
  ops.foldl (treeStep cmp) .nil

/-! Concrete states used to evaluate the operations on explicit inputs. -/

/-- An empty heap. -/
def hEmpty : Heap Int :=
  ⟨[], []⟩

/-- A heap holding the single-element list `[7]` at address 0. -/
def hOne : Heap Int :=
  ⟨[⟨7, none, none, false⟩], []⟩

/-- Header of the list `[7]` in `hOne`. -/
def lOne : LState :=
  ⟨some 0, some 0, 1⟩

/-- A heap holding two independent one-element lists: `[7]` at address 0
and `[9]` at address 1. -/
def hDuo : Heap Int :=
  ⟨[⟨7, none, none, false⟩, ⟨9, none, none, false⟩], []⟩

/-- Header of the list `[7]` in `hDuo`. -/
def lDuoA : LState :=
  ⟨some 0, some 0, 1⟩

/-- Header of the list `[9]` in `hDuo`. -/
def lDuoB : LState :=
  ⟨some 1, some 1, 1⟩

/-- A heap holding the list `[7, 9]` with 7 at address 0. -/
def hSeq1 : Heap Int :=
  ⟨[⟨7, none, some 1, false⟩, ⟨9, some 0, none, false⟩], []⟩

/-- Header of `[7, 9]` in `hSeq1`. -/
def lSeq1 : LState :=
  ⟨some 0, some 1, 2⟩

/-- The same sequence `[7, 9]` laid out at swapped addresses (9 at 0),
showing that comparison depends on values and order, not addresses. -/
def hSeq2 : Heap Int :=
  ⟨[⟨9, some 1, none, false⟩, ⟨7, none, some 0, false⟩], []⟩

/-- Header of `[7, 9]` in `hSeq2`. -/
def lSeq2 : LState :=
  ⟨some 1, some 0, 2⟩

/-- The trace exhibiting the size/traversal mismatch: build `[7]`, erase
its only element via `begin()` (the erase code updates `head_` but leaves
`tail_` pointing at the freed node), then `insert(end(), 9)`, which
follows the dangling `tail_`, writes the freed node's `next_` field, and
never updates the null `head_`. -/
def c4run : Option (Heap Int × LState) := do
  let (h1, l1) ← push_back hEmpty emptyLS 7
  let (h2, l2, _) ← erase h1 l1 (beginIt l1)
  let (h3, l3, _) ← insertAt h2 l2 endIt 9
  some (h3, l3)

/-!  Theorems.  -/

/-- Claim C1, as stated, is false: dereferencing `end()` neither aborts
nor signals any error — `ListIterator::operator*` on the null cursor
returns `Except.ok` carrying the value-initialized default `0`, which is
indistinguishable from a stored `0`. -/
theorem C1_deref_end_counterexample :
    ¬ signalsError (derefIterE hOne (none : Option Nat)) ∧
      derefIterE hOne none = some (Except.ok (0 : Int)) := by
  constructor
  · intro hs
    rcases hs with h | ⟨e, h⟩ <;> simp [derefIterE, derefIter, hOne] at h
  · rfl

/-- Claim C1 amended: dereferencing an iterator equal to `end()` (null
node pointer) silently returns the default-constructed value — the
function-local `static value_type default_value` — and signals no error;
the const iterator behaves identically. -/
theorem C1_deref_end_returns_default (T : Type) [Inhabited T] (h : Heap T) :
    derefIterE h none = some (Except.ok (default : T)) ∧
      derefConstIterE h none = some (Except.ok (default : T)) :=
  ⟨rfl, rfl⟩

/-- Claim C2, as stated, is false: `erase` on the iterator `end()` of the
concrete list `[7, 9]` does not signal `InvalidIterator`; it returns
normally with the list untouched. -/
theorem C2_erase_end_counterexample :
    eraseE hSeq1 lSeq1 endIt = some (Except.ok (hSeq1, lSeq1, endIt)) ∧
      eraseE hSeq1 lSeq1 endIt ≠ some (Except.error Err.invalidIterator) := by
  refine ⟨rfl, fun hcon => ?_⟩
  exact Except.noConfusion (Option.some.inj hcon)

/-- Claim C2 amended: calling `erase` with an iterator equal to `end()`
is a silent no-op — the heap and the list are returned unchanged, the
result is `end()`, and no error is signalled to the caller. -/
theorem C2_erase_end_noop (T : Type) (h : Heap T) (l : LState) :
    eraseE h l endIt = some (Except.ok (h, l, endIt)) :=
  rfl

/-- Claim C4 fails on the code: after `push_back(7)`, `erase(begin())`
and `insert(end(), 9)` the list reports `size() = 1` while the traversal
from `begin()` to `end()` is empty — `erase` of the sole element leaves
`tail_` dangling at the freed node, and the subsequent `insert` writes
through it (use-after-free) without ever repairing the null `head_`. -/
theorem C4_size_traversal_bug :
    (c4run.map fun p => (p.2.size, toListL p.1 p.2)) =
        some (1, some ([] : List Int)) ∧
      (1 : Nat) ≠ ([] : List Int).length := by
  exact ⟨by decide, by decide⟩

/-- Claim C9: iterator equality is raw node-pointer identity — true
exactly when the two cursors reference the same node — and inequality is
its negation; the stored values are never consulted (the comparison does
not even read the heap).  Both the mutable and the const iterator
comparisons behave this way. -/
theorem C9_iterator_eq_is_identity (a b : Option Nat) :
    (iterEqOp a b = true ↔ a = b) ∧
      (iterNeOp a b = !(iterEqOp a b)) ∧
      (iterNeOp a b = true ↔ ¬a = b) ∧
      (constIterEqOp a b = true ↔ a = b) ∧
      (constIterNeOp a b = true ↔ ¬a = b) := by
  refine ⟨?_, rfl, ?_, ?_, ?_⟩ <;>
    simp [iterEqOp, iterNeOp, constIterEqOp, constIterNeOp]

/-- Claim C5, as stated, is false: `queue`/`stack` move assignment is
implemented as `swap`, so after move-assigning the queue holding `[7]`
into the queue holding `[9]`, the moved-from queue holds `[9]` — size 1,
not the empty state. -/
theorem C5_swap_counterexample :
    (queue_move_assign lDuoB lDuoA).2.size = 1 ∧
      toListL hDuo (queue_move_assign lDuoB lDuoA).2 = some [9] ∧
      (queue_move_assign lDuoB lDuoA).2 ≠ emptyLS ∧
      (stack_move_assign lDuoB lDuoA).2 ≠ emptyLS := by
  decide

/-- Claim C5 amended: move construction transfers `head_`/`tail_`/`size_`
and nulls the source for list (and hence for queue/stack, which move
their member container); list move assignment clears the target, steals
the source's fields and leaves the source empty; but queue and stack move
assignment swap the two containers wholesale, so their moved-from
container ends up holding the target's prior elements and is empty only
when the target was. -/
theorem C5_move_semantics (T : Type) (h h' : Heap T)
    (tgt src l t' s' : LState)
    (hma : list_move_assign h tgt src = some (h', t', s')) :
    (list_move_ctor l).1 = ⟨l.head, l.tail, l.size⟩ ∧
      (list_move_ctor l).2 = emptyLS ∧
      t' = ⟨src.head, src.tail, src.size⟩ ∧
      s' = emptyLS ∧
      queue_move_assign tgt src = (src, tgt) ∧
      stack_move_assign tgt src = (src, tgt) := by
  unfold list_move_assign at hma
  rcases hck : clear h tgt with _ | pr
  · rw [hck] at hma
    simp at hma
  · rw [hck] at hma
    obtain ⟨h1, l1⟩ := pr
    simp only [Option.bind_eq_bind, Option.some_bind] at hma
    have h2 := Option.some.inj hma
    simp only [Prod.mk.injEq] at h2
    obtain ⟨-, h3, h4⟩ := h2
    exact ⟨rfl, rfl, h3.symm, h4.symm, rfl, rfl⟩

/-- Witness for C5 at concrete inputs: moving the list `[7]` into the
list `[9]` (sharing the heap `hDuo`). -/
theorem C5_move_semantics_witness :
    (list_move_ctor lOne).1 = ⟨lOne.head, lOne.tail, lOne.size⟩ ∧
      (list_move_ctor lOne).2 = emptyLS ∧
      (⟨some 0, some 0, 1⟩ : LState) = ⟨lDuoA.head, lDuoA.tail, lDuoA.size⟩ ∧
      emptyLS = emptyLS ∧
      queue_move_assign lDuoB lDuoA = (lDuoA, lDuoB) ∧
      stack_move_assign lDuoB lDuoA = (lDuoA, lDuoB) :=
  C5_move_semantics Int hDuo ⟨[⟨7, none, none, false⟩, ⟨9, none, none, true⟩], []⟩
    lDuoB lDuoA lOne ⟨some 0, some 0, 1⟩ emptyLS (by decide)

/-- Claim C8: on an empty container, `front()` and `back()` throw
`std::out_of_range("list is empty")` — an error signalled to the caller,
never a silently returned default — and the queue/stack accessors, which
delegate to them, do the same. -/
theorem C8_front_back_empty_throw (T : Type) (h : Heap T) (l : LState)
    (he : l.size = 0) :
    front h l = some (Except.error (Err.outOfRange listEmptyMsg)) ∧
      back h l = some (Except.error (Err.outOfRange listEmptyMsg)) ∧
      queue_front h l = some (Except.error (Err.outOfRange listEmptyMsg)) ∧
      queue_back h l = some (Except.error (Err.outOfRange listEmptyMsg)) ∧
      stack_top h l = some (Except.error (Err.outOfRange listEmptyMsg)) := by
  have hb : emptyB l = true := by simp [emptyB, he]
  simp [front, back, queue_front, queue_back, stack_top, hb]

/-- Witness for C8 on the concrete empty list. -/
theorem C8_front_back_empty_throw_witness :
    front hEmpty emptyLS = some (Except.error (Err.outOfRange listEmptyMsg)) ∧
      back hEmpty emptyLS = some (Except.error (Err.outOfRange listEmptyMsg)) ∧
      queue_front hEmpty emptyLS = some (Except.error (Err.outOfRange listEmptyMsg)) ∧
      queue_back hEmpty emptyLS = some (Except.error (Err.outOfRange listEmptyMsg)) ∧
      stack_top hEmpty emptyLS = some (Except.error (Err.outOfRange listEmptyMsg)) :=
  C8_front_back_empty_throw Int hEmpty emptyLS rfl

/-- Claim C10: `pop_back()` on an empty list returns normally (it only
prints "list is empty" to `std::cerr`), signals no error to the caller,
and leaves the list untouched — the header is unchanged (so `size()` is
still 0) and the traversal is exactly what it was. -/
theorem C10_pop_back_empty_noop (T : Type) (h : Heap T) (l : LState)
    (he : l.size = 0) :
    pop_backE h l =
        some (Except.ok
          ({ h with errLog := h.errLog ++ [listEmptyMsg] }, l)) ∧
      toListL { h with errLog := h.errLog ++ [listEmptyMsg] } l =
        toListL h l := by
  have hb : emptyB l = true := by simp [emptyB, he]
  exact ⟨by simp [pop_backE, pop_back, hb], rfl⟩

/-- Witness for C10 on the concrete empty list. -/
theorem C10_pop_back_empty_noop_witness :
    pop_backE hEmpty emptyLS =
        some (Except.ok
          ({ hEmpty with errLog := hEmpty.errLog ++ [listEmptyMsg] },
            emptyLS)) ∧
      toListL { hEmpty with errLog := hEmpty.errLog ++ [listEmptyMsg] }
          emptyLS =
        toListL hEmpty emptyLS :=
  C10_pop_back_empty_noop Int hEmpty emptyLS rfl

/-- A subtree balanced with top color BLACK has a BLACK root color. -/
theorem topColor_black_of_balanced {α : Type} {t : Batteries.RBNode α}
    {n : Nat} (h : t.Balanced .black n) : isBlackC (topColor t) = true := by
  cases h <;> rfl

/-- The balance invariant implies invariant 2: no RED node has a RED
child anywhere in the tree. -/
theorem noRedRed_of_balanced {α : Type} {t : Batteries.RBNode α}
    {c : Batteries.RBColor} {n : Nat} (h : t.Balanced c n) :
    noRedRed t = true := by
  induction h with
  | nil => rfl
  | red hl hr ihl ihr =>
    simp [noRedRed, ihl, ihr, topColor_black_of_balanced hl,
      topColor_black_of_balanced hr]
  | black hl hr ihl ihr =>
    simp [noRedRed, ihl, ihr, isBlackC]

/-- The balance invariant implies invariant 3: the black count is the
same along every root-to-nil path (and equals the balance height). -/
theorem bhOpt_of_balanced {α : Type} {t : Batteries.RBNode α}
    {c : Batteries.RBColor} {n : Nat} (h : t.Balanced c n) :
    bhOpt t = some n := by
  induction h with
  | nil => rfl
  | red hl hr ihl ihr => simp [bhOpt, ihl, ihr, isBlackC]
  | black hl hr ihl ihr => simp [bhOpt, ihl, ihr, isBlackC]

/-- A tree balanced with top color BLACK has a black (or nil) root. -/
theorem rootBlack_of_balanced {α : Type} {t : Batteries.RBNode α}
    {n : Nat} (h : t.Balanced .black n) : rootBlack t = true := by
  cases h <;> rfl

/-- Every tree reached from a black-balanced start by a sequence of
engine inserts and erases is again black-balanced. -/
theorem runTree_balanced_aux {α : Type} (cmp : α → α → Ordering) :
    ∀ (ops : List (TreeOp α)) (t : Batteries.RBNode α),
      (∃ n, t.Balanced .black n) →
      ∃ n, (ops.foldl (treeStep cmp) t).Balanced .black n := by
  intro ops
  induction ops with
  | nil => exact fun t h => h
  | cons op rest ih =>
    intro t h
    obtain ⟨n, hb⟩ := h
    refine ih _ ?_
    cases op with
    | insertK k =>
      exact (Batteries.RBNode.Balanced.ins cmp k hb).setBlack
    | eraseK k =>
      exact hb.erase

/-- Claim C3: after any interleaved sequence of inserts and erases on the
tree engine (with any comparator policy — set/map, or the multiset
tie-break), the root is BLACK, no RED node has a RED child, and every
root-to-nil path crosses the same number of BLACK nodes.  Quantifying
over all operation lists covers the state after every intermediate
operation as well. -/
theorem C3_rb_invariants {α : Type} (cmp : α → α → Ordering)
    (ops : List (TreeOp α)) :
    rootBlack (runTree cmp ops) = true ∧
      noRedRed (runTree cmp ops) = true ∧
      (bhOpt (runTree cmp ops)).isSome = true := by
  obtain ⟨n, hb⟩ :=
    runTree_balanced_aux cmp ops .nil ⟨0, Batteries.RBNode.Balanced.nil⟩
  exact ⟨rootBlack_of_balanced hb, noRedRed_of_balanced hb,
    by simp [runTree, bhOpt_of_balanced hb]⟩

/-- A walk that returns the empty sequence started at the null cursor. -/
theorem chain_nil_inv {T : Type} {m : List (Node T)} {f : Nat}
    {c : Option Nat} (h : chain m f c = some []) : c = none := by
  cases c with
  | none => rfl
  | some i =>
    cases f with
    | zero => simp [chain] at h
    | succ g => simp [chain, Option.bind_eq_some] at h

/-- Unfolding a walk that returns a non-empty sequence: the cursor is a
real node carrying the first value, and the rest of the walk continues
from its `next_` pointer with one unit of fuel less. -/
theorem chain_cons_inv {T : Type} {m : List (Node T)} {f : Nat}
    {c : Option Nat} {v : T} {rest : List T}
    (h : chain m f c = some (v :: rest)) :
    ∃ i g n, c = some i ∧ f = g + 1 ∧ m[i]? = some n ∧
      n.value = v ∧ chain m g n.next = some rest := by
  cases c with
  | none => simp [chain] at h
  | some i =>
    cases f with
    | zero => simp [chain] at h
    | succ g =>
      simp [chain, Option.bind_eq_some] at h
      obtain ⟨n, hn, hr, hv⟩ := h
      exact ⟨i, g, n, rfl, rfl, hn, hv, hr⟩

/-- A successful walk of `f` steps yields at most `f` values. -/
theorem chain_length_le {T : Type} (m : List (Node T)) :
    ∀ (f : Nat) (c : Option Nat) (xs : List T),
      chain m f c = some xs → xs.length ≤ f := by
  intro f
  induction f with
  | zero =>
    intro c xs h
    cases xs with
    | nil => simp
    | cons a b =>
      obtain ⟨i, g, n, -, hg, -⟩ := chain_cons_inv h
      exact absurd hg (by simp)
  | succ g' ih =>
    intro c xs h
    cases xs with
    | nil => simp
    | cons a b =>
      obtain ⟨i, g, n, -, hg, -, -, hr⟩ := chain_cons_inv h
      obtain rfl : g = g' := by omega
      simpa using ih _ _ hr

/-- The comparison walk of `operator==` against the two traversals: when
both head chains denote the sequences `xs1` and `xs2` of equal length and
the fuel covers them, the walk terminates and answers whether the
sequences coincide. -/
theorem eqLoop_spec {T : Type} [DecidableEq T] (m1 m2 : List (Node T)) :
    ∀ (xs1 : List T) (fuel f1 f2 : Nat) (c1 c2 : Option Nat)
      (xs2 : List T),
      chain m1 f1 c1 = some xs1 → chain m2 f2 c2 = some xs2 →
      xs1.length = xs2.length → xs1.length ≤ fuel →
      eqLoop m1 m2 fuel c1 c2 = some (decide (xs1 = xs2)) := by
  intro xs1
  induction xs1 with
  | nil =>
    intro fuel f1 f2 c1 c2 xs2 h1 h2 hlen _
    rw [chain_nil_inv h1]
    cases xs2 with
    | nil => simp [eqLoop]
    | cons w rest2 => simp at hlen
  | cons v rest ih =>
    intro fuel f1 f2 c1 c2 xs2 h1 h2 hlen hfuel
    obtain ⟨i, g1, n1, rfl, rfl, hn1, hv1, hr1⟩ := chain_cons_inv h1
    cases xs2 with
    | nil => simp at hlen
    | cons w rest2 =>
      obtain ⟨j, g2, n2, rfl, rfl, hn2, hv2, hr2⟩ := chain_cons_inv h2
      cases fuel with
      | zero => simp at hfuel
      | succ fl =>
        have hlen' : rest.length = rest2.length := by
          simpa using hlen
        have hfuel' : rest.length ≤ fl := by
          simpa using hfuel
        by_cases hvw : v = w
        · subst hvw
          rw [show eqLoop m1 m2 (fl + 1) (some i) (some j) =
              eqLoop m1 m2 fl n1.next n2.next by
            simp [eqLoop, hn1, hn2, hv1, hv2]]
          rw [ih fl g1 g2 n1.next n2.next rest2 hr1 hr2 hlen' hfuel']
          simp
        · rw [show eqLoop m1 m2 (fl + 1) (some i) (some j) = some false by
            simp [eqLoop, hn1, hn2, hv1, hv2, hvw]]
          simp [hvw]

/-- Claim C7: for sanely-represented lists, `operator==` answers `true`
exactly when the two `size_` fields agree and the begin-to-end traversal
sequences are element-wise equal. -/
theorem C7_list_eq_iff (T : Type) [DecidableEq T] (h1 : Heap T)
    (l1 : LState) (xs1 : List T) (h2 : Heap T) (l2 : LState) (xs2 : List T)
    (w1 : WFr h1 l1 xs1) (w2 : WFr h2 l2 xs2) :
    listEqOp h1 l1 h2 l2 = some true ↔ (l1.size = l2.size ∧ xs1 = xs2) := by
  obtain ⟨ht1, hs1, hh1⟩ := w1
  obtain ⟨ht2, hs2, hh2⟩ := w2
  have hc1 : chain h1.mem (h1.mem.length + 1) l1.head = some xs1 := by
    rw [hh1]
    exact ht1
  have hc2 : chain h2.mem (h2.mem.length + 1) l2.head = some xs2 := by
    rw [hh2]
    exact ht2
  unfold listEqOp
  by_cases hsz : l1.size = l2.size
  · have hlen : xs1.length = xs2.length := by
      rw [← hs1, ← hs2, hsz]
    have hfl : xs1.length ≤ h1.mem.length + h2.mem.length + 1 := by
      have := chain_length_le h1.mem _ _ _ hc1
      omega
    rw [if_neg (by simp [hsz])]
    rw [eqLoop_spec h1.mem h2.mem xs1 _ _ _ _ _ xs2 hc1 hc2 hlen hfl]
    simp [hsz]
  · rw [if_pos hsz]
    simp [hsz]

/-- Witness for C7: the two concrete layouts of `[7, 9]` (with swapped
node addresses) compare equal. -/
theorem C7_list_eq_iff_witness :
    listEqOp hSeq1 lSeq1 hSeq2 lSeq2 = some true ↔
      (lSeq1.size = lSeq2.size ∧ ([7, 9] : List Int) = [7, 9]) :=
  C7_list_eq_iff Int hSeq1 lSeq1 [7, 9] hSeq2 lSeq2 [7, 9]
    ⟨by decide, by decide, by decide⟩ ⟨by decide, by decide, by decide⟩

end S21

